import Mathlib

/-
  Verification of the pong game in `src/main.rs` (a bevy application).
  The simulation core is embedded shallowly: scalar arithmetic is modelled
  over an arbitrary linear ordered field `K` (the game uses `f32`; all the
  claims are about the exact arithmetic the source expresses), instantiated
  at `ℚ` for executable evaluation and at `ℝ` where vector normalisation
  (square roots) appears.  `usize` scores are modelled as `ℕ`.
-/

namespace Pong

/-- 2-D vector, standing in for `glam::Vec2` (the `z` coordinate of the
`Vec3` translations in the source is display-only and never read by the
simulation, so translations are embedded as their `truncate()`). -/
structure Vec2 (K : Type) where
  x : K
  y : K
deriving DecidableEq

section Constants

variable (K : Type) [LinearOrderedField K]

/-- `PADDLE_SIZE` (main.rs line 10). -/
def PADDLE_SIZE : Vec2 K := ⟨20, 120⟩

/-- `PADDLE_SPEED` (main.rs line 11). -/
def PADDLE_SPEED : K := 500

/-- `BALL_STARTING_POSITION` (main.rs line 15), truncated to 2-D. -/
def BALL_STARTING_POSITION : Vec2 K := ⟨-610, 0⟩

/-- `BALL_SIZE` (main.rs line 16). -/
def BALL_SIZE : K := 20

/-- `BALL_SPEED` (main.rs line 17). -/
def BALL_SPEED : K := 400

/-- `INITIAL_BALL_DIRECTION` (main.rs line 18). -/
def INITIAL_BALL_DIRECTION : Vec2 K := ⟨1/2, -1/2⟩

/-- `WALL_THICKNESS` (main.rs line 20). -/
def WALL_THICKNESS : K := 1

/-- `VERTICAL_WALL_THICKNESS` (main.rs line 21). -/
def VERTICAL_WALL_THICKNESS : K := 20

/-- `LEFT_WALL` (main.rs line 22). -/
def LEFT_WALL : K := -640

/-- `RIGHT_WALL` (main.rs line 23). -/
def RIGHT_WALL : K := 640

/-- `BOTTOM_WALL` (main.rs line 24). -/
def BOTTOM_WALL : K := -470

/-- `TOP_WALL` (main.rs line 25). -/
def TOP_WALL : K := 470

/-- `GAP_BETWEEN_PADDLE_AND_SIDES` (main.rs line 27). -/
def GAP_BETWEEN_PADDLE_AND_SIDES : K := 10

end Constants

/-- `TARGET_SCORE` (main.rs line 34). -/
def TARGET_SCORE : ℕ := 9

section GeometryDefs

variable {K : Type} [LinearOrderedField K]

/-- bevy `Aabb2d`: an axis-aligned box given by its two corners. -/
structure Aabb2d (K : Type) where
  min : Vec2 K
  max : Vec2 K
deriving DecidableEq

/-- `Aabb2d::new(center, half_size)`: corners are center ∓ half size. -/
def Aabb2d.new (center halfSize : Vec2 K) : Aabb2d K :=
  ⟨⟨center.x - halfSize.x, center.y - halfSize.y⟩,
   ⟨center.x + halfSize.x, center.y + halfSize.y⟩⟩

/-- `Aabb2d::closest_point(point)`: component-wise clamp of the point into
the box (`point.clamp(self.min, self.max)`, glam clamp = `max` then `min`). -/
def Aabb2d.closestPoint (b : Aabb2d K) (p : Vec2 K) : Vec2 K :=
  ⟨Min.min (Max.max p.x b.min.x) b.max.x, Min.min (Max.max p.y b.min.y) b.max.y⟩

/-- glam `distance_squared` between two points. -/
def distSq (a b : Vec2 K) : K := (a.x - b.x) ^ 2 + (a.y - b.y) ^ 2

/-- bevy `BoundingCircle`: center plus radius. -/
structure BoundingCircle (K : Type) where
  center : Vec2 K
  radius : K
deriving DecidableEq

/-- The `Collision` enum of main.rs lines 495–501. -/
inductive Collision
  | Left
  | Right
  | Top
  | Bottom
deriving DecidableEq

/-- `ball_collision` (main.rs lines 503–523).  The intersection test is
bevy's `BoundingCircle::intersects(&Aabb2d)`: the squared distance from the
circle center to the closest point of the box is at most the squared
radius. -/
def ball_collision (ball : BoundingCircle K) (box : Aabb2d K) : Option Collision :=
  if ¬ (distSq ball.center (box.closestPoint ball.center) ≤ ball.radius * ball.radius) then none
  else
    let closest := box.closestPoint ball.center
    let offset : Vec2 K := ⟨ball.center.x - closest.x, ball.center.y - closest.y⟩
    let side :=
      if |offset.x| > |offset.y| then
        if offset.x < 0 then Collision.Left else Collision.Right
      else if offset.y > 0 then Collision.Top
      else Collision.Bottom
    some side

/-- The collision test as the specification words it (section 4.1): clamp
the ball center into the rectangle, return `none` exactly when the distance
from the closest point to the center exceeds the radius (stated on squares,
both sides being non-negative), otherwise classify the side from the offset:
`Left`/`Right` when `|offset.x| > |offset.y|` (`Left` iff `offset.x < 0`),
otherwise `Top` iff `offset.y > 0`, else `Bottom`. -/
def collision_spec (c : Vec2 K) (r : K) (box : Aabb2d K) : Option Collision :=
  let closest := box.closestPoint c
  if r * r < distSq c closest then none
  else
    let offset : Vec2 K := ⟨c.x - closest.x, c.y - closest.y⟩
    some (if |offset.x| > |offset.y| then
            if offset.x < 0 then Collision.Left else Collision.Right
          else if 0 < offset.y then Collision.Top
          else Collision.Bottom)

end GeometryDefs

/-- The `PaddleType` component (main.rs lines 101–105). -/
inductive PaddleType
  | Left
  | Right
deriving DecidableEq

/-- The `WallType` component (main.rs lines 164–170). -/
inductive WallType
  | Left
  | Right
  | Bottom
  | Top
deriving DecidableEq

/-- The `GameState` states (main.rs lines 122–127). -/
inductive GameState
  | Playing
  | GameOver
deriving DecidableEq

/-- The `ScoreEvent` event (main.rs lines 144–149). -/
inductive ScoreEvent
  | Player1Scored
  | Player2Scored
deriving DecidableEq

section PassDefs

variable {K : Type} [LinearOrderedField K]

/-- One entry of `check_for_collisions`' collider query: the collider's
transform (translation and scale, scale doubling as the sprite size), its
optional `WallType` tag and whether it carries the `Paddle` component. -/
structure Collider (K : Type) where
  translation : Vec2 K
  scale : Vec2 K
  wallType : Option WallType
  isPaddle : Bool
deriving DecidableEq

/-- The box built for a collider in main.rs lines 436–439:
`Aabb2d::new(translation.truncate(), scale.truncate() / 2)`. -/
def colliderBox (col : Collider K) : Aabb2d K :=
  Aabb2d.new col.translation ⟨col.scale.x / 2, col.scale.y / 2⟩

/-- The state touched by `check_for_collisions` (main.rs lines 422–493):
the two score counters, the `Winner` resource, the pending
`NextState<GameState>`, the ball's velocity and the events written this
tick (`CollisionEvent` is a unit struct, so only its count matters). -/
structure PassState (K : Type) where
  score0 : ℕ
  score1 : ℕ
  winner : Option PaddleType
  nextState : Option GameState
  ballVelocity : Vec2 K
  collisionEvents : ℕ
  scoreEvents : List ScoreEvent
deriving DecidableEq

/-- The physics response of main.rs lines 469–490: if the collider is a
paddle, both velocity components are scaled by 1.2 (= 6/5); then the
component named by the collision side is negated, but only when the
(post-scaling) velocity moves into the surface. -/
def physicsResponse (isPaddle : Bool) (c : Collision) (v : Vec2 K) : Vec2 K :=
  let v1 : Vec2 K := if isPaddle then ⟨v.x * (6/5), v.y * (6/5)⟩ else v
  let reflectX : Bool :=
    match c with
    | Collision.Left => decide (v1.x > 0)
    | Collision.Right => decide (v1.x < 0)
    | _ => false
  let reflectY : Bool :=
    match c with
    | Collision.Top => decide (v1.y < 0)
    | Collision.Bottom => decide (v1.y > 0)
    | _ => false
  ⟨if reflectX then -v1.x else v1.x, if reflectY then -v1.y else v1.y⟩

/-- One iteration of the collider loop of `check_for_collisions`
(main.rs lines 433–492).  A `Right` wall hit bumps `score.0`, writes
`Player1Scored` and — when the new score reaches `TARGET_SCORE` — records
winner `Left` and requests `GameOver`, then `continue`s past the physics;
symmetrically for the `Left` wall.  Any other collider writes a
`CollisionEvent` and applies the physics response. -/
def processCollider (ballPos : Vec2 K) (st : PassState K) (col : Collider K) : PassState K :=
  match ball_collision ⟨ballPos, BALL_SIZE K / 2⟩ (colliderBox col) with
  | none => st
  | some collision =>
    match col.wallType with
    | some WallType.Right =>
      { st with
        score0 := st.score0 + 1
        scoreEvents := st.scoreEvents ++ [ScoreEvent.Player1Scored]
        winner := if TARGET_SCORE ≤ st.score0 + 1 then some PaddleType.Left else st.winner
        nextState := if TARGET_SCORE ≤ st.score0 + 1 then some GameState.GameOver
                     else st.nextState }
    | some WallType.Left =>
      { st with
        score1 := st.score1 + 1
        scoreEvents := st.scoreEvents ++ [ScoreEvent.Player2Scored]
        winner := if TARGET_SCORE ≤ st.score1 + 1 then some PaddleType.Right else st.winner
        nextState := if TARGET_SCORE ≤ st.score1 + 1 then some GameState.GameOver
                     else st.nextState }
    | _ =>
      { st with
        collisionEvents := st.collisionEvents + 1
        ballVelocity := physicsResponse col.isPaddle collision st.ballVelocity }

/-- `check_for_collisions` (main.rs lines 422–493): fold the per-collider
step over the collider query. -/
def check_for_collisions (ballPos : Vec2 K) (st : PassState K)
    (cols : List (Collider K)) : PassState K :=
  cols.foldl (processCollider ballPos) st

/-- `WallLocation::position` (main.rs lines 181–188). -/
def wallPosition (w : WallType) : Vec2 K :=
  match w with
  | WallType.Left => ⟨LEFT_WALL K, 0⟩
  | WallType.Right => ⟨RIGHT_WALL K, 0⟩
  | WallType.Bottom => ⟨0, BOTTOM_WALL K⟩
  | WallType.Top => ⟨0, TOP_WALL K⟩

/-- `WallLocation::size` (main.rs lines 191–206): vertical walls are
`WALL_THICKNESS` wide and arena height + `VERTICAL_WALL_THICKNESS` tall,
horizontal walls are arena width + `WALL_THICKNESS` wide and
`VERTICAL_WALL_THICKNESS` tall. -/
def wallSize (w : WallType) : Vec2 K :=
  match w with
  | WallType.Left | WallType.Right =>
    ⟨WALL_THICKNESS K, (TOP_WALL K - BOTTOM_WALL K) + VERTICAL_WALL_THICKNESS K⟩
  | WallType.Bottom | WallType.Top =>
    ⟨(RIGHT_WALL K - LEFT_WALL K) + WALL_THICKNESS K, VERTICAL_WALL_THICKNESS K⟩

/-- The collider record a wall entity contributes (main.rs `Wall::new`,
lines 209–244: translation from `position()`, scale from `size()`). -/
def wallCollider (w : WallType) : Collider K :=
  ⟨wallPosition w, wallSize w, some w, false⟩

/-- The collider record a paddle contributes (main.rs setup, lines
263–287): x at `LEFT_WALL + GAP` resp. `RIGHT_WALL - GAP`, y the paddle's
current vertical position, scale `PADDLE_SIZE`, no wall tag. -/
def paddleCollider (pt : PaddleType) (y : K) : Collider K :=
  ⟨⟨match pt with
    | PaddleType.Left => LEFT_WALL K + GAP_BETWEEN_PADDLE_AND_SIDES K
    | PaddleType.Right => RIGHT_WALL K - GAP_BETWEEN_PADDLE_AND_SIDES K, y⟩,
   PADDLE_SIZE K, none, true⟩

end PassDefs

section PaddleMoveDefs

variable {K : Type} [LinearOrderedField K]

/-- Rust `f32::clamp(min, max)`: `min` when below, `max` when above,
identity otherwise. -/
def rustClamp (x lo hi : K) : K := if x < lo then lo else if hi < x then hi else x

/-- The held keys one paddle reads in `move_paddle`: up/down movement keys
and the speed-doubling key (`W`/`S`/`ShiftLeft` for the left paddle,
`ArrowUp`/`ArrowDown`/`NumpadEnter` for the right one). -/
structure PaddleInput where
  up : Bool
  down : Bool
  boost : Bool
deriving DecidableEq

/-- `top_bound` of `move_paddle` (main.rs line 388):
`TOP_WALL - WALL_THICKNESS / 2 - PADDLE_SIZE.y / 2`. -/
def top_bound (K : Type) [LinearOrderedField K] : K :=
  TOP_WALL K - WALL_THICKNESS K / 2 - (PADDLE_SIZE K).y / 2

/-- `bottom_bound` of `move_paddle` (main.rs line 389). -/
def bottom_bound (K : Type) [LinearOrderedField K] : K :=
  BOTTOM_WALL K + WALL_THICKNESS K / 2 + (PADDLE_SIZE K).y / 2

/-- The update `move_paddle` applies to one paddle's vertical position in
one tick (main.rs lines 390–419): direction is +1 per held up key and −1
per held down key, the accelerate factor is 1 plus 1 when the boost key is
held, and the new position is clamped into `[bottom_bound, top_bound]`. -/
def move_paddle_step (y : K) (i : PaddleInput) (dt : K) : K :=
  let direction : K := (if i.up then (1 : K) else 0) + (if i.down then (-1 : K) else 0)
  let accelerate_fact : K := 1 + (if i.boost then (1 : K) else 0)
  rustClamp (y + direction * PADDLE_SPEED K * accelerate_fact * dt)
    (bottom_bound K) (top_bound K)

/-- Iterated `move_paddle` over a sequence of ticks, each with its held
keys and its `delta_secs`. -/
def run_move_paddle (y : K) (l : List (PaddleInput × K)) : K :=
  l.foldl (fun y s => move_paddle_step y s.1 s.2) y

end PaddleMoveDefs

/-- Output of `play_collision_sound` (main.rs lines 525–539): how many
bounce sounds and score sounds are spawned this tick, and how many
collision events remain pending afterwards. -/
structure SoundPlays where
  bouncePlays : ℕ
  collisionEventsLeft : ℕ
  scorePlays : ℕ
deriving DecidableEq

/-- `play_collision_sound` (main.rs lines 525–539): when at least one
collision event is pending, clear them all and spawn exactly one bounce
sound; when at least one score event is pending, spawn one score sound
(score events are read but not cleared here; `ball_reset` clears them). -/
def play_collision_sound (collisionEvents : ℕ) (scoreEvents : List ScoreEvent) : SoundPlays :=
  ⟨if collisionEvents ≠ 0 then 1 else 0,
   if collisionEvents ≠ 0 then 0 else collisionEvents,
   if scoreEvents ≠ [] then 1 else 0⟩

section ContactDefs

variable {K : Type} [LinearOrderedField K]

/-- Squared euclidean norm of a velocity (glam `length_squared`). -/
def normSq (v : Vec2 K) : K := v.x ^ 2 + v.y ^ 2

/-- The velocity change a single collider inflicts during the collision
pass, as a function of the ball position and the incoming velocity (the
projection of `processCollider` onto the velocity; the other `PassState`
fields do not influence it, see `processCollider_velocity`). -/
def velStep (v : Vec2 K) (s : Vec2 K × Collider K) : Vec2 K :=
  (processCollider s.1 ⟨0, 0, none, none, v, 0, []⟩ s.2).ballVelocity

/-- The ball velocity after a sequence of collision-pass encounters, each
given by the ball position at that moment and the collider met. -/
def runContacts (v : Vec2 K) (l : List (Vec2 K × Collider K)) : Vec2 K :=
  l.foldl velStep v

/-- Whether an encounter is a paddle contact: the collider carries the
`Paddle` component and the collision test fires. -/
def isPaddleHit (s : Vec2 K × Collider K) : Bool :=
  s.2.isPaddle && (ball_collision ⟨s.1, BALL_SIZE K / 2⟩ (colliderBox s.2)).isSome

end ContactDefs

/-- Euclidean speed of a rational velocity vector, as a real number. -/
noncomputable def speed (v : Vec2 ℚ) : ℝ := Real.sqrt ((normSq v : ℚ) : ℝ)

/-- glam `Vec2::normalize`: divide by the euclidean length. -/
noncomputable def normalizeR (v : Vec2 ℝ) : Vec2 ℝ :=
  let len := Real.sqrt (v.x ^ 2 + v.y ^ 2)
  ⟨v.x / len, v.y / len⟩

/-- The body of `ball_reset`'s non-empty branch (main.rs lines 547–561),
with the two random draws (`sign ∈ {1, -1}` with probability 1/2 each and
`t` uniform in `[0.1, 0.5]`) passed as parameters: set
`vy := vx * (sign * t)`, renormalise the velocity to `BALL_SPEED`, move the
ball to `LEFT_WALL + 40` when its x is positive and to `RIGHT_WALL - 40`
otherwise, and zero its y.  Returns (new velocity, new position). -/
noncomputable def ball_reset_core (v pos : Vec2 ℝ) (sign t : ℝ) : Vec2 ℝ × Vec2 ℝ :=
  let temp_num := sign * t
  let vy := v.x * temp_num
  let v1 : Vec2 ℝ := ⟨v.x, vy⟩
  let v2 : Vec2 ℝ := ⟨(normalizeR v1).x * BALL_SPEED ℝ, (normalizeR v1).y * BALL_SPEED ℝ⟩
  let newX := if 0 < pos.x then LEFT_WALL ℝ + 40 else RIGHT_WALL ℝ - 40
  (v2, ⟨newX, 0⟩)

/-- `ball_reset` (main.rs lines 541–563): does nothing unless at least one
score event is pending; otherwise clears the score events and applies
`ball_reset_core`.  Returns (remaining score events, velocity, position). -/
noncomputable def ball_reset (ev : List ScoreEvent) (v pos : Vec2 ℝ) (sign t : ℝ) :
    List ScoreEvent × Vec2 ℝ × Vec2 ℝ :=
  if ev = [] then (ev, v, pos) else ([], ball_reset_core v pos sign t)

/-- The match state owned by the simulation: `GameState`, the `Score` and
`Winner` resources, the ball transform/velocity and the two paddles'
vertical positions. -/
structure World (K : Type) where
  state : GameState
  score0 : ℕ
  score1 : ℕ
  winner : Option PaddleType
  ballPos : Vec2 K
  ballVel : Vec2 K
  paddleLY : K
  paddleRY : K

/-- The ball velocity spawned at setup and restored by `game_reset`:
`INITIAL_BALL_DIRECTION.normalize() * BALL_SPEED` (main.rs lines 302 and
653). -/
noncomputable def initialBallVelocity : Vec2 ℝ :=
  ⟨(normalizeR (INITIAL_BALL_DIRECTION ℝ)).x * BALL_SPEED ℝ,
   (normalizeR (INITIAL_BALL_DIRECTION ℝ)).y * BALL_SPEED ℝ⟩

/-- `game_reset` (main.rs lines 637–655), run on entering `Playing`:
score to (0,0), both paddles to vertical center, ball to its starting
position and initial velocity.  The `Winner` resource is not touched. -/
noncomputable def game_reset (w : World ℝ) : World ℝ :=
  { w with
    score0 := 0
    score1 := 0
    paddleLY := 0
    paddleRY := 0
    ballVel := initialBallVelocity
    ballPos := BALL_STARTING_POSITION ℝ }

/-- The keys the game polls: the two paddles' movement/boost keys and the
restart key (`K`, polled with `just_pressed` in `game_over_keyboard`). -/
structure Input where
  leftUp : Bool
  leftDown : Bool
  leftBoost : Bool
  rightUp : Bool
  rightDown : Bool
  rightBoost : Bool
  restart : Bool
deriving DecidableEq

section WorldDefs

variable {K : Type} [LinearOrderedField K]

/-- The collider query of a tick, in spawn order (paddle 1, paddle 2, then
the four walls), with the paddles at their current vertical positions. -/
def colliderList (pL pR : K) : List (Collider K) :=
  [paddleCollider PaddleType.Left pL, paddleCollider PaddleType.Right pR,
   wallCollider WallType.Left, wallCollider WallType.Right,
   wallCollider WallType.Bottom, wallCollider WallType.Top]

end WorldDefs

/-- The collision pass of one `FixedUpdate` tick: the ball position after
`apply_velocity`, the pass state seeded from the world (no pending
events, no pending state transition), and the colliders with the paddles
already moved by `move_paddle` (the schedule chains `apply_velocity`,
`move_paddle`, `check_for_collisions` in that order). -/
noncomputable def tickPass (w : World ℝ) (i : Input) (dt : ℝ) : PassState ℝ :=
  check_for_collisions
    ⟨w.ballPos.x + w.ballVel.x * dt, w.ballPos.y + w.ballVel.y * dt⟩
    ⟨w.score0, w.score1, w.winner, none, w.ballVel, 0, []⟩
    (colliderList
      (move_paddle_step w.paddleLY ⟨i.leftUp, i.leftDown, i.leftBoost⟩ dt)
      (move_paddle_step w.paddleRY ⟨i.rightUp, i.rightDown, i.rightBoost⟩ dt))

/-- One `FixedUpdate` tick while in `Playing` (main.rs lines 69–78):
`apply_velocity`, `move_paddle`, `check_for_collisions`,
`play_collision_sound` (audio only), `ball_reset`, in that order; the
`NextState` requested during the pass (if any) becomes the state for the
next tick. -/
noncomputable def playingTick (w : World ℝ) (i : Input) (dt sign t : ℝ) : World ℝ :=
  let ballPos1 : Vec2 ℝ := ⟨w.ballPos.x + w.ballVel.x * dt, w.ballPos.y + w.ballVel.y * dt⟩
  let st := tickPass w i dt
  let rst := ball_reset st.scoreEvents st.ballVelocity ballPos1 sign t
  { state := match st.nextState with | some s => s | none => w.state
    score0 := st.score0
    score1 := st.score1
    winner := st.winner
    ballPos := rst.2.2
    ballVel := rst.2.1
    paddleLY := move_paddle_step w.paddleLY ⟨i.leftUp, i.leftDown, i.leftBoost⟩ dt
    paddleRY := move_paddle_step w.paddleRY ⟨i.rightUp, i.rightDown, i.rightBoost⟩ dt }

/-- One step of the whole state machine.  In `Playing` the `FixedUpdate`
chain runs (it is gated by `run_if(in_state(GameState::Playing))`).  In
`GameOver` nothing runs except `game_over_keyboard` (main.rs lines
628–635): when the restart key is just pressed the state returns to
`Playing`, whose `OnEnter` schedule runs `game_reset`. -/
noncomputable def tick (w : World ℝ) (i : Input) (dt sign t : ℝ) : World ℝ :=
  match w.state with
  | GameState.Playing => playingTick w i dt sign t
  | GameState.GameOver =>
    if i.restart then game_reset { w with state := GameState.Playing } else w

section HelperLemmas

variable {K : Type} [LinearOrderedField K]

lemma rustClamp_mem (x lo hi : K) (h : lo ≤ hi) :
    lo ≤ rustClamp x lo hi ∧ rustClamp x lo hi ≤ hi := by
  unfold rustClamp
  split
  · exact ⟨le_refl _, h⟩
  · split
    · exact ⟨h, le_refl _⟩
    · constructor <;> linarith [not_lt.mp (by assumption : ¬ x < lo)]

lemma pong_bounds_le : bottom_bound K ≤ top_bound K := by
  unfold bottom_bound top_bound TOP_WALL BOTTOM_WALL WALL_THICKNESS PADDLE_SIZE
  norm_num

lemma move_paddle_step_mem (y : K) (i : PaddleInput) (dt : K) :
    bottom_bound K ≤ move_paddle_step y i dt ∧ move_paddle_step y i dt ≤ top_bound K :=
  rustClamp_mem _ _ _ pong_bounds_le

/-- The velocity the collision pass leaves behind only depends on the
incoming velocity, the ball position and the collider: `velStep` is the
velocity projection of `processCollider`. -/
lemma processCollider_velocity (p : Vec2 K) (st : PassState K) (c : Collider K) :
    (processCollider p st c).ballVelocity = velStep st.ballVelocity (p, c) := by
  unfold velStep processCollider
  rcases ball_collision ⟨p, BALL_SIZE K / 2⟩ (colliderBox c) with _ | side
  · rfl
  · rcases c.wallType with _ | w
    · rfl
    · cases w <;> rfl

lemma processCollider_scores_mono (p : Vec2 K) (st : PassState K) (c : Collider K) :
    st.score0 ≤ (processCollider p st c).score0
    ∧ st.score1 ≤ (processCollider p st c).score1 := by
  unfold processCollider
  rcases ball_collision ⟨p, BALL_SIZE K / 2⟩ (colliderBox c) with _ | side
  · exact ⟨le_refl _, le_refl _⟩
  · rcases c.wallType with _ | w
    · exact ⟨le_refl _, le_refl _⟩
    · cases w <;> simp

lemma check_scores_mono (p : Vec2 K) (st : PassState K) (cols : List (Collider K)) :
    st.score0 ≤ (check_for_collisions p st cols).score0
    ∧ st.score1 ≤ (check_for_collisions p st cols).score1 := by
  induction cols generalizing st with
  | nil => exact ⟨le_refl _, le_refl _⟩
  | cons c cs ih =>
    have h1 := processCollider_scores_mono p st c
    have h2 := ih (processCollider p st c)
    exact ⟨h1.1.trans h2.1, h1.2.trans h2.2⟩

/-- The physics response scales the squared speed by `(6/5)² = 36/25` for a
paddle and preserves it otherwise: reflections only flip signs. -/
lemma normSq_physicsResponse (b : Bool) (c : Collision) (v : Vec2 K) :
    normSq (physicsResponse b c v) = (if b then (36/25 : K) else 1) * normSq v := by
  have hsq : ∀ (r : Bool) (a : K), (if r then -a else a) ^ 2 = a ^ 2 := by
    intro r a
    cases r <;> simp
  cases b <;>
    · unfold physicsResponse normSq
      simp only [if_true, if_false, Bool.false_eq_true]
      rw [hsq, hsq]
      ring

/-- A non-scoring encounter scales the squared speed by `36/25` exactly
when it is a paddle hit, else leaves it unchanged. -/
lemma normSq_velStep (v : Vec2 K) (s : Vec2 K × Collider K)
    (hL : s.2.wallType ≠ some WallType.Left) (hR : s.2.wallType ≠ some WallType.Right) :
    normSq (velStep v s) = (if isPaddleHit s then (36/25 : K) else 1) * normSq v := by
  unfold velStep processCollider isPaddleHit
  rcases hc : ball_collision ⟨s.1, BALL_SIZE K / 2⟩ (colliderBox s.2) with _ | side
  · simp [hc]
  · rcases hw : s.2.wallType with _ | w
    · simp only [hc, hw]
      rw [normSq_physicsResponse]
      simp
    · cases w
      · exact absurd hw hL
      · exact absurd hw hR
      · simp only [hc, hw]
        rw [normSq_physicsResponse]
        simp
      · simp only [hc, hw]
        rw [normSq_physicsResponse]
        simp

lemma normSq_runContacts (v : Vec2 K) (l : List (Vec2 K × Collider K))
    (h : ∀ s ∈ l, s.2.wallType ≠ some WallType.Left ∧ s.2.wallType ≠ some WallType.Right) :
    normSq (runContacts v l) = (36/25 : K) ^ (l.countP isPaddleHit) * normSq v := by
  induction l generalizing v with
  | nil => simp [runContacts]
  | cons a tl ih =>
    have ha := h a (List.mem_cons_self a tl)
    have htl : ∀ s ∈ tl, s.2.wallType ≠ some WallType.Left
        ∧ s.2.wallType ≠ some WallType.Right :=
      fun s hs => h s (List.mem_cons_of_mem a hs)
    have h1 : runContacts v (a :: tl) = runContacts (velStep v a) tl := rfl
    rw [h1, ih (velStep v a) htl, normSq_velStep v a ha.1 ha.2, List.countP_cons]
    by_cases hp : isPaddleHit a <;> simp only [hp, if_true, if_false] <;> ring_nf <;>
      simp [pow_succ]

lemma speed_runContacts (v : Vec2 ℚ) (l : List (Vec2 ℚ × Collider ℚ))
    (h : ∀ s ∈ l, s.2.wallType ≠ some WallType.Left ∧ s.2.wallType ≠ some WallType.Right) :
    speed (runContacts v l) = (6/5 : ℝ) ^ (l.countP isPaddleHit) * speed v := by
  unfold speed
  rw [normSq_runContacts v l h]
  push_cast
  rw [show ((36 : ℝ)/25) ^ (l.countP isPaddleHit)
      = ((6/5 : ℝ) ^ (l.countP isPaddleHit)) ^ 2 by
    rw [← pow_mul, mul_comm, pow_mul]
    norm_num]
  rw [Real.sqrt_mul (sq_nonneg _), Real.sqrt_sq (by positivity)]

end HelperLemmas

section GeometryTheorems

variable {K : Type} [LinearOrderedField K]

/-- C1.  `ball_collision` implements exactly the clamp-offset algorithm of
the spec: it agrees with `collision_spec` everywhere; an exact touch
(squared distance equal to squared radius, i.e. distance equal to radius)
is a collision; and a tie in offset magnitudes classifies as a vertical
(`Top`/`Bottom`) side.  It is a pure function of its two arguments (the
embedding is a function, and the source reads nothing else). -/
theorem ball_collision_matches_spec :
    (∀ (ball : BoundingCircle K) (box : Aabb2d K),
      ball_collision ball box = collision_spec ball.center ball.radius box)
    ∧ (∀ (ball : BoundingCircle K) (box : Aabb2d K),
      distSq ball.center (box.closestPoint ball.center) = ball.radius * ball.radius →
      (ball_collision ball box).isSome = true)
    ∧ (∀ (ball : BoundingCircle K) (box : Aabb2d K) (s : Collision),
      |ball.center.x - (box.closestPoint ball.center).x| =
        |ball.center.y - (box.closestPoint ball.center).y| →
      ball_collision ball box = some s → s = Collision.Top ∨ s = Collision.Bottom) := by
  refine ⟨?_, ?_, ?_⟩
  · intro ball box
    unfold ball_collision collision_spec
    rcases le_or_lt (distSq ball.center (box.closestPoint ball.center))
        (ball.radius * ball.radius) with h | h
    · rw [if_neg (by simpa using h), if_neg (not_lt.mpr h)]
    · rw [if_pos (by simpa using h), if_pos h]
  · intro ball box h
    unfold ball_collision
    rw [if_neg (by simp [h])]
    simp
  · intro ball box s htie hsome
    unfold ball_collision at hsome
    by_cases hd : distSq ball.center (box.closestPoint ball.center) ≤ ball.radius * ball.radius
    · rw [if_neg (by simpa using hd)] at hsome
      simp only [Option.some.injEq] at hsome
      rw [if_neg (by rw [htie]; exact lt_irrefl _)] at hsome
      by_cases hy : ball.center.y - (box.closestPoint ball.center).y > 0
      · rw [if_pos hy] at hsome
        exact Or.inl hsome.symm
      · rw [if_neg hy] at hsome
        exact Or.inr hsome.symm
    · rw [if_pos (by simpa using hd)] at hsome
      exact absurd hsome (by simp)

/-- Witness for C1 at concrete inputs: a ball exactly touching the box
(distance 10 = radius) collides, and a diagonal tie classifies vertically. -/
theorem ball_collision_matches_spec_witness :
    (ball_collision (K := ℚ) ⟨⟨0, 20⟩, 10⟩ ⟨⟨-5, -10⟩, ⟨5, 10⟩⟩).isSome = true
    ∧ (Collision.Top = Collision.Top ∨ Collision.Top = Collision.Bottom) := by
  constructor
  · exact (ball_collision_matches_spec (K := ℚ)).2.1 ⟨⟨0, 20⟩, 10⟩ ⟨⟨-5, -10⟩, ⟨5, 10⟩⟩
      (by norm_num [distSq, Aabb2d.closestPoint, max_def, min_def])
  · exact (ball_collision_matches_spec (K := ℚ)).2.2 ⟨⟨15, 15⟩, 20⟩ ⟨⟨-5, -5⟩, ⟨5, 5⟩⟩ Collision.Top
      (by norm_num [Aabb2d.closestPoint, max_def, min_def])
      (by norm_num [ball_collision, Aabb2d.closestPoint, distSq, max_def, min_def])

/-- C10.  A ball whose center lies inside or on the boundary of the
rectangle clamps to itself: the closest point is the center, the offset is
the zero vector, and `ball_collision` classifies the degenerate case as
`Bottom` (since `|0| > |0|` and `0 > 0` are both false). -/
theorem inside_ball_is_bottom (c : Vec2 K) (r : K) (box : Aabb2d K)
    (hx1 : box.min.x ≤ c.x) (hx2 : c.x ≤ box.max.x)
    (hy1 : box.min.y ≤ c.y) (hy2 : c.y ≤ box.max.y) :
    box.closestPoint c = c
    ∧ (c.x - (box.closestPoint c).x = 0 ∧ c.y - (box.closestPoint c).y = 0)
    ∧ ball_collision ⟨c, r⟩ box = some Collision.Bottom := by
  have hclosest : box.closestPoint c = c := by
    unfold Aabb2d.closestPoint
    have h1 : Max.max c.x box.min.x = c.x := max_eq_left hx1
    have h2 : Max.max c.y box.min.y = c.y := max_eq_left hy1
    rw [h1, h2, min_eq_left hx2, min_eq_left hy2]
  refine ⟨hclosest, by rw [hclosest]; exact ⟨sub_self _, sub_self _⟩, ?_⟩
  unfold ball_collision
  have hdist : distSq (⟨c, r⟩ : BoundingCircle K).center
      (box.closestPoint (⟨c, r⟩ : BoundingCircle K).center) = 0 := by
    simp only [hclosest]
    simp [distSq]
  rw [if_neg (by rw [hdist]; simpa using mul_self_nonneg r)]
  simp only [hclosest]
  norm_num

/-- Witness for C10: a concrete ball center strictly inside a concrete box. -/
theorem inside_ball_is_bottom_witness :
    Aabb2d.closestPoint (K := ℚ) ⟨⟨-3, -4⟩, ⟨7, 8⟩⟩ ⟨1, 2⟩ = ⟨1, 2⟩
    ∧ (((1 : ℚ) - (Aabb2d.closestPoint ⟨⟨-3, -4⟩, ⟨7, 8⟩⟩ ⟨1, 2⟩).x = 0)
        ∧ ((2 : ℚ) - (Aabb2d.closestPoint ⟨⟨-3, -4⟩, ⟨7, 8⟩⟩ ⟨1, 2⟩).y = 0))
    ∧ ball_collision (K := ℚ) ⟨⟨1, 2⟩, 10⟩ ⟨⟨-3, -4⟩, ⟨7, 8⟩⟩ = some Collision.Bottom :=
  inside_ball_is_bottom ⟨1, 2⟩ 10 ⟨⟨-3, -4⟩, ⟨7, 8⟩⟩
    (by norm_num) (by norm_num) (by norm_num) (by norm_num)

end GeometryTheorems

section PassTheorems

variable {K : Type} [LinearOrderedField K]

/-- C2.  For a colliding paddle (a collider with the `Paddle` component and
no wall tag), both velocity components are first multiplied by 1.2 and then
the component named by the classified side is negated exactly when the
post-multiplication velocity moves into the surface: `Left` negates `vx`
iff `vx > 0`, `Right` iff `vx < 0`, `Top` negates `vy` iff `vy < 0`,
`Bottom` iff `vy > 0`.  In particular a ball with `vx > 0` classified
`Left` gets `vx` multiplied by 1.2 and negated while `vy` is multiplied by
1.2. -/
theorem paddle_hit_speeds_up_then_reflects :
    (∀ (ballPos : Vec2 K) (st : PassState K) (col : Collider K) (side : Collision),
      col.wallType = none → col.isPaddle = true →
      ball_collision ⟨ballPos, BALL_SIZE K / 2⟩ (colliderBox col) = some side →
      (processCollider ballPos st col).ballVelocity =
        ⟨if (side = Collision.Left ∧ 0 < st.ballVelocity.x * (6/5))
            ∨ (side = Collision.Right ∧ st.ballVelocity.x * (6/5) < 0)
          then -(st.ballVelocity.x * (6/5)) else st.ballVelocity.x * (6/5),
         if (side = Collision.Top ∧ st.ballVelocity.y * (6/5) < 0)
            ∨ (side = Collision.Bottom ∧ 0 < st.ballVelocity.y * (6/5))
          then -(st.ballVelocity.y * (6/5)) else st.ballVelocity.y * (6/5)⟩)
    ∧ (∀ (ballPos : Vec2 K) (st : PassState K) (col : Collider K),
      col.wallType = none → col.isPaddle = true →
      ball_collision ⟨ballPos, BALL_SIZE K / 2⟩ (colliderBox col) = some Collision.Left →
      0 < st.ballVelocity.x →
      (processCollider ballPos st col).ballVelocity =
        ⟨-(st.ballVelocity.x * (6/5)), st.ballVelocity.y * (6/5)⟩) := by
  have key : ∀ (ballPos : Vec2 K) (st : PassState K) (col : Collider K) (side : Collision),
      col.wallType = none → col.isPaddle = true →
      ball_collision ⟨ballPos, BALL_SIZE K / 2⟩ (colliderBox col) = some side →
      (processCollider ballPos st col).ballVelocity =
        ⟨if (side = Collision.Left ∧ 0 < st.ballVelocity.x * (6/5))
            ∨ (side = Collision.Right ∧ st.ballVelocity.x * (6/5) < 0)
          then -(st.ballVelocity.x * (6/5)) else st.ballVelocity.x * (6/5),
         if (side = Collision.Top ∧ st.ballVelocity.y * (6/5) < 0)
            ∨ (side = Collision.Bottom ∧ 0 < st.ballVelocity.y * (6/5))
          then -(st.ballVelocity.y * (6/5)) else st.ballVelocity.y * (6/5)⟩ := by
    intro ballPos st col side hw hp hc
    unfold processCollider
    rw [hc, hw]
    cases side
    case Left =>
      by_cases hx : (0 : K) < st.ballVelocity.x * (6/5) <;> simp [physicsResponse, hp, hx]
    case Right =>
      by_cases hx : st.ballVelocity.x * (6/5) < (0 : K) <;> simp [physicsResponse, hp, hx]
    case Top =>
      by_cases hy : st.ballVelocity.y * (6/5) < (0 : K) <;> simp [physicsResponse, hp, hy]
    case Bottom =>
      by_cases hy : (0 : K) < st.ballVelocity.y * (6/5) <;> simp [physicsResponse, hp, hy]
  refine ⟨key, ?_⟩
  intro ballPos st col hw hp hc hv
  rw [key ballPos st col Collision.Left hw hp hc]
  have h6 : 0 < st.ballVelocity.x * (6/5 : K) := by positivity
  simp [h6]

/-- Witness for C2: a concrete ball touching the left edge of the left
paddle's collider with velocity `(3, 4)` comes out with velocity
`(-18/5, 24/5)`. -/
theorem paddle_hit_speeds_up_then_reflects_witness :
    (processCollider (K := ℚ) ⟨-645, 0⟩ ⟨0, 0, none, none, ⟨3, 4⟩, 0, []⟩
        (paddleCollider PaddleType.Left 0)).ballVelocity = ⟨-(3 * (6/5)), 4 * (6/5)⟩ := by
  have h := (paddle_hit_speeds_up_then_reflects (K := ℚ)).2 ⟨-645, 0⟩
    ⟨0, 0, none, none, ⟨3, 4⟩, 0, []⟩ (paddleCollider PaddleType.Left 0)
    rfl rfl
    (by norm_num [ball_collision, paddleCollider, colliderBox, Aabb2d.new,
      Aabb2d.closestPoint, distSq, BALL_SIZE, PADDLE_SIZE, LEFT_WALL,
      GAP_BETWEEN_PADDLE_AND_SIDES, max_def, min_def])
    (by norm_num)
  simpa using h

/-- C3.  A collision with the `Right` wall increments player-left's score
(`score.0`) by exactly one, appends a `Player1Scored` event, leaves the
velocity and the collision-event count untouched (the `continue` skips the
physics response), and — exactly when the new score reaches
`TARGET_SCORE` = 9 — records winner `Left` and requests `GameOver`;
symmetrically for the `Left` wall and player-right. -/
theorem scoring_wall_updates_score :
    (∀ (ballPos : Vec2 K) (st : PassState K) (col : Collider K),
      col.wallType = some WallType.Right →
      (ball_collision ⟨ballPos, BALL_SIZE K / 2⟩ (colliderBox col)).isSome = true →
      processCollider ballPos st col =
        { st with
          score0 := st.score0 + 1
          scoreEvents := st.scoreEvents ++ [ScoreEvent.Player1Scored]
          winner := if TARGET_SCORE ≤ st.score0 + 1 then some PaddleType.Left else st.winner
          nextState := if TARGET_SCORE ≤ st.score0 + 1 then some GameState.GameOver
                       else st.nextState })
    ∧ (∀ (ballPos : Vec2 K) (st : PassState K) (col : Collider K),
      col.wallType = some WallType.Left →
      (ball_collision ⟨ballPos, BALL_SIZE K / 2⟩ (colliderBox col)).isSome = true →
      processCollider ballPos st col =
        { st with
          score1 := st.score1 + 1
          scoreEvents := st.scoreEvents ++ [ScoreEvent.Player2Scored]
          winner := if TARGET_SCORE ≤ st.score1 + 1 then some PaddleType.Right else st.winner
          nextState := if TARGET_SCORE ≤ st.score1 + 1 then some GameState.GameOver
                       else st.nextState }) := by
  constructor <;>
  · intro ballPos st col hw hc
    rcases hcoll : ball_collision ⟨ballPos, BALL_SIZE K / 2⟩ (colliderBox col) with _ | side
    · rw [hcoll] at hc
      exact absurd hc (by simp)
    · unfold processCollider
      rw [hcoll, hw]

/-- Witness for C3: the ball dead on the `Right` wall collider, score 8,
yields score 9, a `Player1Scored` event, winner `Left` and a `GameOver`
request, with the velocity unchanged. -/
theorem scoring_wall_updates_score_witness :
    processCollider (K := ℚ) ⟨640, 0⟩ ⟨8, 3, none, none, ⟨5, -7⟩, 0, []⟩
      (wallCollider WallType.Right) =
      ⟨9, 3, some PaddleType.Left, some GameState.GameOver, ⟨5, -7⟩, 0,
        [ScoreEvent.Player1Scored]⟩ := by
  have h := (scoring_wall_updates_score (K := ℚ)).1 ⟨640, 0⟩
    ⟨8, 3, none, none, ⟨5, -7⟩, 0, []⟩ (wallCollider WallType.Right)
    rfl
    (by norm_num [ball_collision, wallCollider, wallPosition, wallSize, colliderBox,
      Aabb2d.new, Aabb2d.closestPoint, distSq, BALL_SIZE, WALL_THICKNESS,
      VERTICAL_WALL_THICKNESS, RIGHT_WALL, TOP_WALL, BOTTOM_WALL, max_def, min_def])
  rw [h]
  norm_num [TARGET_SCORE]

end PassTheorems

section PaddleTheorems

variable {K : Type} [LinearOrderedField K]

/-- C5 (corrected).  After the paddle-movement step of any tick — and hence
after any positive number of ticks, for any held keys and any tick lengths
— the paddle's vertical position lies in `[bottom_bound, top_bound]`, the
clamp interval the source computes from `WALL_THICKNESS` (the 1-unit
thickness of the *vertical* walls).  The original claim's consequence that
the paddle rectangle therefore never overlaps the Top/Bottom walls is
false: those walls are `VERTICAL_WALL_THICKNESS` = 20 units tall, see the
counterexample. -/
theorem paddle_stays_in_clamp_bounds (y : K) (l : List (PaddleInput × K)) (h : l ≠ []) :
    bottom_bound K ≤ run_move_paddle y l ∧ run_move_paddle y l ≤ top_bound K := by
  have hpres : ∀ (l' : List (PaddleInput × K)) (z : K),
      bottom_bound K ≤ z ∧ z ≤ top_bound K →
      bottom_bound K ≤ run_move_paddle z l' ∧ run_move_paddle z l' ≤ top_bound K := by
    intro l'
    induction l' with
    | nil => intro z hz; exact hz
    | cons a t ih =>
      intro z _
      exact ih (move_paddle_step z a.1 a.2) (move_paddle_step_mem _ _ _)
  match l, h with
  | a :: t, _ =>
    have : run_move_paddle y (a :: t) = run_move_paddle (move_paddle_step y a.1 a.2) t := rfl
    rw [this]
    exact hpres t _ (move_paddle_step_mem _ _ _)

/-- Witness for C5's amended statement: one tick of holding the up key. -/
theorem paddle_stays_in_clamp_bounds_witness :
    bottom_bound ℚ ≤ run_move_paddle 0 [(⟨true, false, false⟩, 1)]
    ∧ run_move_paddle (0 : ℚ) [(⟨true, false, false⟩, 1)] ≤ top_bound ℚ :=
  paddle_stays_in_clamp_bounds 0 [(⟨true, false, false⟩, 1)] (by simp)

/-- Counterexample to C5 as stated: holding up for a 1-second tick from the
center drives the paddle to `top_bound` = 409.5, where its rectangle
(half height 60, top edge 469.5) overlaps the Top wall collider, whose
box reaches down to `470 - 20/2 = 460`: the paddle does NOT stay fully
between the Top and Bottom walls. -/
theorem paddle_can_overlap_top_wall :
    move_paddle_step (K := ℚ) 0 ⟨true, false, false⟩ 1 = top_bound ℚ
    ∧ (wallCollider (K := ℚ) WallType.Top).translation.y
        - (wallCollider (K := ℚ) WallType.Top).scale.y / 2
      < top_bound ℚ + (PADDLE_SIZE ℚ).y / 2
    ∧ top_bound ℚ - (PADDLE_SIZE ℚ).y / 2
      < (wallCollider (K := ℚ) WallType.Top).translation.y
        + (wallCollider (K := ℚ) WallType.Top).scale.y / 2 := by
  refine ⟨?_, ?_, ?_⟩ <;>
    norm_num [move_paddle_step, rustClamp, top_bound, bottom_bound, wallCollider,
      wallPosition, wallSize, PADDLE_SIZE, PADDLE_SPEED, TOP_WALL, BOTTOM_WALL,
      WALL_THICKNESS, VERTICAL_WALL_THICKNESS, RIGHT_WALL, LEFT_WALL]

end PaddleTheorems

/-- C9.  Per tick the bounce sound plays at most once: with one or more
pending collision events exactly one playback is issued and all pending
collision events are cleared, so the number of colliders that bounced is
irrelevant to the number of playbacks. -/
theorem bounce_sound_at_most_once :
    (∀ (n : ℕ) (ev : List ScoreEvent), (play_collision_sound n ev).bouncePlays ≤ 1)
    ∧ (∀ (n : ℕ) (ev : List ScoreEvent), n ≠ 0 →
      (play_collision_sound n ev).bouncePlays = 1
      ∧ (play_collision_sound n ev).collisionEventsLeft = 0)
    ∧ (∀ (n m : ℕ) (ev : List ScoreEvent), n ≠ 0 → m ≠ 0 →
      (play_collision_sound n ev).bouncePlays = (play_collision_sound m ev).bouncePlays) := by
  refine ⟨fun n ev => ?_, fun n ev hn => ?_, fun n m ev hn hm => ?_⟩
  · unfold play_collision_sound
    split <;> simp
  · simp [play_collision_sound, hn]
  · simp [play_collision_sound, hn, hm]

/-- Witness for C9: five pending collision events produce one playback and
leave none pending. -/
theorem bounce_sound_at_most_once_witness :
    (play_collision_sound 5 []).bouncePlays = 1
    ∧ (play_collision_sound 5 []).collisionEventsLeft = 0 :=
  bounce_sound_at_most_once.2.1 5 [] (by decide)

/-- C6.  On a tick with a pending score event, `ball_reset` clears the
score events, serves with speed exactly `BALL_SPEED` (regardless of any
prior 1.2× escalation of the incoming velocity), gives the served velocity
the vertical/horizontal ratio `sign * t` drawn against the pre-reset
horizontal velocity (`sign` the 50/50 draw from `{1, -1}`, `t` the uniform
draw from `[0.1, 0.5]`), and repositions the ball to `y = 0` and
`x = LEFT_WALL + 40` when the ball exited right-ward (`x > 0`), else
`x = RIGHT_WALL - 40`. -/
theorem score_reset_serves_at_base_speed
    (ev : List ScoreEvent) (v pos : Vec2 ℝ) (sign t : ℝ)
    (hev : ev ≠ []) (hvx : v.x ≠ 0)
    (hsign : sign = 1 ∨ sign = -1) (ht1 : 1/10 ≤ t) (ht2 : t ≤ 1/2) :
    (ball_reset ev v pos sign t).1 = []
    ∧ Real.sqrt ((ball_reset ev v pos sign t).2.1.x ^ 2
        + (ball_reset ev v pos sign t).2.1.y ^ 2) = BALL_SPEED ℝ
    ∧ (ball_reset ev v pos sign t).2.1.y / (ball_reset ev v pos sign t).2.1.x = sign * t
    ∧ (ball_reset ev v pos sign t).2.2.y = 0
    ∧ (0 < pos.x → (ball_reset ev v pos sign t).2.2.x = LEFT_WALL ℝ + 40)
    ∧ (pos.x ≤ 0 → (ball_reset ev v pos sign t).2.2.x = RIGHT_WALL ℝ - 40) := by
  have hreset : ball_reset ev v pos sign t = ([], ball_reset_core v pos sign t) := by
    unfold ball_reset
    rw [if_neg hev]
  rw [hreset]
  set S : ℝ := v.x ^ 2 + (v.x * (sign * t)) ^ 2 with hS
  have hSpos : 0 < S := by
    have : 0 < v.x ^ 2 := pow_two_pos_of_ne_zero hvx
    nlinarith [sq_nonneg (v.x * (sign * t))]
  have hL : Real.sqrt S ≠ 0 := ne_of_gt (Real.sqrt_pos.mpr hSpos)
  have hL2 : Real.sqrt S ^ 2 = S := Real.sq_sqrt hSpos.le
  have hcore : ball_reset_core v pos sign t =
      (⟨v.x / Real.sqrt S * BALL_SPEED ℝ, v.x * (sign * t) / Real.sqrt S * BALL_SPEED ℝ⟩,
       ⟨if 0 < pos.x then LEFT_WALL ℝ + 40 else RIGHT_WALL ℝ - 40, 0⟩) := by
    unfold ball_reset_core normalizeR
    rw [hS]
  rw [hcore]
  refine ⟨rfl, ?_, ?_, rfl, fun h => by simp [h], fun h => by simp [not_lt.mpr h]⟩
  · have hsq : (v.x / Real.sqrt S * BALL_SPEED ℝ) ^ 2
        + (v.x * (sign * t) / Real.sqrt S * BALL_SPEED ℝ) ^ 2 = (BALL_SPEED ℝ) ^ 2 := by
      field_simp
      rw [hS]
      ring
    rw [hsq]
    exact Real.sqrt_sq (by norm_num [BALL_SPEED])
  · show v.x * (sign * t) / Real.sqrt S * BALL_SPEED ℝ
        / (v.x / Real.sqrt S * BALL_SPEED ℝ) = sign * t
    have hB : BALL_SPEED ℝ ≠ 0 := by norm_num [BALL_SPEED]
    field_simp
    ring

/-- Witness for C6: a pending score event and incoming velocity `(-5, 2)`
(escalated or not) serve at speed exactly 400 with ratio `-1/4`, from the
left side (ball exited at `x ≤ 0`). -/
theorem score_reset_serves_at_base_speed_witness :
    (ball_reset [ScoreEvent.Player1Scored] ⟨-5, 2⟩ ⟨-1, 7⟩ (-1) (1/4)).1 = []
    ∧ Real.sqrt ((ball_reset [ScoreEvent.Player1Scored] ⟨-5, 2⟩ ⟨-1, 7⟩ (-1) (1/4)).2.1.x ^ 2
        + (ball_reset [ScoreEvent.Player1Scored] ⟨-5, 2⟩ ⟨-1, 7⟩ (-1) (1/4)).2.1.y ^ 2)
      = BALL_SPEED ℝ
    ∧ (ball_reset [ScoreEvent.Player1Scored] ⟨-5, 2⟩ ⟨-1, 7⟩ (-1) (1/4)).2.1.y
        / (ball_reset [ScoreEvent.Player1Scored] ⟨-5, 2⟩ ⟨-1, 7⟩ (-1) (1/4)).2.1.x
      = (-1) * (1/4)
    ∧ (ball_reset [ScoreEvent.Player1Scored] ⟨-5, 2⟩ ⟨-1, 7⟩ (-1) (1/4)).2.2.y = 0
    ∧ ((0 : ℝ) < (-1 : ℝ) →
        (ball_reset [ScoreEvent.Player1Scored] ⟨-5, 2⟩ ⟨-1, 7⟩ (-1) (1/4)).2.2.x
          = LEFT_WALL ℝ + 40)
    ∧ ((-1 : ℝ) ≤ 0 →
        (ball_reset [ScoreEvent.Player1Scored] ⟨-5, 2⟩ ⟨-1, 7⟩ (-1) (1/4)).2.2.x
          = RIGHT_WALL ℝ - 40) :=
  score_reset_serves_at_base_speed [ScoreEvent.Player1Scored] ⟨-5, 2⟩ ⟨-1, 7⟩ (-1) (1/4)
    (by simp) (by norm_num) (Or.inr rfl) (by norm_num) (by norm_num)

/-- C7.  Over any sequence of collision-pass encounters containing no
scoring wall (so paddles and Top/Bottom wall bounces only), the ball's
speed magnitude after the sequence is exactly the starting magnitude times
`1.2^N`, `N` the number of paddle contacts; the speed is non-decreasing
along such a sequence; and it is unbounded: no cap is enforced (for every
threshold some such sequence exceeds it). -/
theorem paddle_hits_scale_speed :
    (∀ (v : Vec2 ℚ) (l : List (Vec2 ℚ × Collider ℚ)) (B : ℝ),
      (∀ s ∈ l, s.2.wallType ≠ some WallType.Left ∧ s.2.wallType ≠ some WallType.Right) →
      speed v = B →
      speed (runContacts v l) = B * (6/5 : ℝ) ^ (l.countP isPaddleHit))
    ∧ (∀ (v : Vec2 ℚ) (l1 l2 : List (Vec2 ℚ × Collider ℚ)),
      (∀ s ∈ l1 ++ l2, s.2.wallType ≠ some WallType.Left
        ∧ s.2.wallType ≠ some WallType.Right) →
      speed (runContacts v l1) ≤ speed (runContacts v (l1 ++ l2)))
    ∧ (∀ (v : Vec2 ℚ) (C : ℝ), 0 < speed v →
      ∃ l : List (Vec2 ℚ × Collider ℚ),
        (∀ s ∈ l, s.2.wallType ≠ some WallType.Left ∧ s.2.wallType ≠ some WallType.Right)
        ∧ C < speed (runContacts v l)) := by
  refine ⟨?_, ?_, ?_⟩
  · intro v l B h hB
    rw [speed_runContacts v l h, hB]
    ring
  · intro v l1 l2 h
    have h1 : ∀ s ∈ l1, s.2.wallType ≠ some WallType.Left
        ∧ s.2.wallType ≠ some WallType.Right :=
      fun s hs => h s (List.mem_append_left l2 hs)
    have h2 : ∀ s ∈ l2, s.2.wallType ≠ some WallType.Left
        ∧ s.2.wallType ≠ some WallType.Right :=
      fun s hs => h s (List.mem_append_right l1 hs)
    have happ : runContacts v (l1 ++ l2) = runContacts (runContacts v l1) l2 := by
      unfold runContacts
      exact List.foldl_append _ _ _ _
    rw [happ, speed_runContacts (runContacts v l1) l2 h2]
    have hone : (1 : ℝ) ≤ (6/5 : ℝ) ^ (l2.countP isPaddleHit) :=
      one_le_pow₀ (by norm_num)
    have hnn : 0 ≤ speed (runContacts v l1) := by
      unfold speed
      exact Real.sqrt_nonneg _
    exact le_mul_of_one_le_left hnn hone
  · intro v C hv
    have hhit : isPaddleHit ((⟨0, 0⟩, ⟨⟨0, 0⟩, ⟨40, 40⟩, none, true⟩) :
        Vec2 ℚ × Collider ℚ) = true := by
      norm_num [isPaddleHit, ball_collision, colliderBox, Aabb2d.new,
        Aabb2d.closestPoint, distSq, BALL_SIZE, max_def, min_def]
    have hcount : ∀ n : ℕ,
        ((List.replicate n ((⟨0, 0⟩, ⟨⟨0, 0⟩, ⟨40, 40⟩, none, true⟩) :
          Vec2 ℚ × Collider ℚ)).countP isPaddleHit) = n := by
      intro n
      induction n with
      | zero => simp
      | succ k ih => simp [List.replicate_succ, List.countP_cons, hhit, ih]
    obtain ⟨n, hn⟩ := pow_unbounded_of_one_lt (α := ℝ) (C / speed v)
      (by norm_num : (1 : ℝ) < 6/5)
    refine ⟨List.replicate n (⟨0, 0⟩, ⟨⟨0, 0⟩, ⟨40, 40⟩, none, true⟩), ?_, ?_⟩
    · intro s hs
      rw [List.eq_of_mem_replicate hs]
      exact ⟨by simp, by simp⟩
    · rw [speed_runContacts _ _ (by
        intro s hs
        rw [List.eq_of_mem_replicate hs]
        exact ⟨by simp, by simp⟩), hcount n]
      calc C = C / speed v * speed v := by field_simp
        _ < (6/5 : ℝ) ^ n * speed v := by
          exact mul_lt_mul_of_pos_right hn hv

/-- Witness for C7: starting from velocity `(3, 4)` (speed 5), one paddle
contact yields speed `5 * (6/5)`. -/
theorem paddle_hits_scale_speed_witness :
    speed (runContacts ⟨3, 4⟩ [(⟨0, 0⟩, ⟨⟨0, 0⟩, ⟨40, 40⟩, none, true⟩)])
      = 5 * (6/5 : ℝ) ^
        ([((⟨0, 0⟩, ⟨⟨0, 0⟩, ⟨40, 40⟩, none, true⟩) :
          Vec2 ℚ × Collider ℚ)].countP isPaddleHit) :=
  paddle_hits_scale_speed.1 ⟨3, 4⟩ [(⟨0, 0⟩, ⟨⟨0, 0⟩, ⟨40, 40⟩, none, true⟩)] 5
    (by
      intro s hs
      simp only [List.mem_singleton] at hs
      rw [hs]
      exact ⟨by simp, by simp⟩)
    (by
      unfold speed normSq
      norm_num
      rw [show (25 : ℝ) = 5 ^ 2 by norm_num]
      exact Real.sqrt_sq (by norm_num))

/-- C8.  Scores are `ℕ` (so non-negative); a tick taken in `Playing` never
decreases either score component (so within a match, scores are monotone
non-decreasing across ticks); and a tick taken in `GameOver` without the
restart key changes nothing at all — no score mutation and no ball motion
happen outside `Playing`. -/
theorem playing_only_mutation :
    (∀ (w : World ℝ) (i : Input) (dt sign t : ℝ), w.state = GameState.Playing →
      ((0 ≤ (tick w i dt sign t).score0 ∧ 0 ≤ (tick w i dt sign t).score1)
        ∧ w.score0 ≤ (tick w i dt sign t).score0
        ∧ w.score1 ≤ (tick w i dt sign t).score1))
    ∧ (∀ (w : World ℝ) (i : Input) (dt sign t : ℝ), w.state = GameState.GameOver →
      i.restart = false → tick w i dt sign t = w) := by
  constructor
  · intro w i dt sign t h
    have ht : tick w i dt sign t = playingTick w i dt sign t := by
      unfold tick
      rw [h]
    rw [ht]
    refine ⟨⟨Nat.zero_le _, Nat.zero_le _⟩, ?_⟩
    have hp0 : (playingTick w i dt sign t).score0 = (tickPass w i dt).score0 := rfl
    have hp1 : (playingTick w i dt sign t).score1 = (tickPass w i dt).score1 := rfl
    rw [hp0, hp1]
    unfold tickPass
    have hm := check_scores_mono
      (⟨w.ballPos.x + w.ballVel.x * dt, w.ballPos.y + w.ballVel.y * dt⟩ : Vec2 ℝ)
      ⟨w.score0, w.score1, w.winner, none, w.ballVel, 0, []⟩
      (colliderList (move_paddle_step w.paddleLY ⟨i.leftUp, i.leftDown, i.leftBoost⟩ dt)
        (move_paddle_step w.paddleRY ⟨i.rightUp, i.rightDown, i.rightBoost⟩ dt))
    exact hm
  · intro w i dt sign t h hr
    unfold tick
    rw [h]
    simp [hr]

/-- Witness for C8: a concrete `Playing` tick keeps the scores at least
(2, 3), and a concrete `GameOver` tick without restart is the identity. -/
theorem playing_only_mutation_witness :
    (((0 : ℕ) ≤ (tick ⟨GameState.Playing, 2, 3, none, ⟨0, 0⟩, ⟨1, 1⟩, 0, 0⟩
          ⟨false, false, false, false, false, false, false⟩ 1 1 1).score0
        ∧ (0 : ℕ) ≤ (tick ⟨GameState.Playing, 2, 3, none, ⟨0, 0⟩, ⟨1, 1⟩, 0, 0⟩
          ⟨false, false, false, false, false, false, false⟩ 1 1 1).score1)
      ∧ 2 ≤ (tick ⟨GameState.Playing, 2, 3, none, ⟨0, 0⟩, ⟨1, 1⟩, 0, 0⟩
          ⟨false, false, false, false, false, false, false⟩ 1 1 1).score0
      ∧ 3 ≤ (tick ⟨GameState.Playing, 2, 3, none, ⟨0, 0⟩, ⟨1, 1⟩, 0, 0⟩
          ⟨false, false, false, false, false, false, false⟩ 1 1 1).score1)
    ∧ tick ⟨GameState.GameOver, 2, 3, some PaddleType.Left, ⟨0, 0⟩, ⟨1, 1⟩, 0, 0⟩
        ⟨false, false, false, false, false, false, false⟩ 1 1 1
      = ⟨GameState.GameOver, 2, 3, some PaddleType.Left, ⟨0, 0⟩, ⟨1, 1⟩, 0, 0⟩ :=
  ⟨playing_only_mutation.1 _ _ 1 1 1 rfl,
   playing_only_mutation.2 _ _ 1 1 1 rfl rfl⟩

/-- C4 (corrected).  The restart input while in `GameOver` transitions back
to `Playing` and performs the reset of `game_reset`: score to (0,0), both
paddles to vertical center 0, ball to its starting position with the
initial velocity (initial direction normalised and scaled to base speed).
The recorded winner, however, is NOT cleared: `game_reset` leaves the
`Winner` resource untouched (it is only overwritten when a later match
ends). -/
theorem restart_resets_match (w : World ℝ) (i : Input) (dt sign t : ℝ)
    (h : w.state = GameState.GameOver) (hr : i.restart = true) :
    tick w i dt sign t =
      { state := GameState.Playing
        score0 := 0
        score1 := 0
        winner := w.winner
        ballPos := BALL_STARTING_POSITION ℝ
        ballVel := initialBallVelocity
        paddleLY := 0
        paddleRY := 0 } := by
  unfold tick
  rw [h]
  simp [hr, game_reset]

/-- Witness for C4's amended statement at a concrete `GameOver` world. -/
theorem restart_resets_match_witness :
    tick ⟨GameState.GameOver, 3, 9, some PaddleType.Right, ⟨2, 2⟩, ⟨1, 1⟩, 5, -5⟩
        ⟨false, false, false, false, false, false, true⟩ 1 1 1 =
      { state := GameState.Playing
        score0 := 0
        score1 := 0
        winner := some PaddleType.Right
        ballPos := BALL_STARTING_POSITION ℝ
        ballVel := initialBallVelocity
        paddleLY := 0
        paddleRY := 0 } :=
  restart_resets_match _ _ 1 1 1 rfl rfl

/-- Counterexample to C4 as stated: restarting from a `GameOver` world
whose recorded winner is `Right` leaves the winner at `some Right` — it is
not set back to `none`. -/
theorem restart_does_not_clear_winner :
    (tick ⟨GameState.GameOver, 3, 9, some PaddleType.Right, ⟨2, 2⟩, ⟨1, 1⟩, 5, -5⟩
        ⟨false, false, false, false, false, false, true⟩ 1 1 1).winner ≠ none := by
  have h1 : (tick ⟨GameState.GameOver, 3, 9, some PaddleType.Right, ⟨2, 2⟩, ⟨1, 1⟩, 5, -5⟩
      ⟨false, false, false, false, false, false, true⟩ 1 1 1).winner
      = some PaddleType.Right := rfl
  rw [h1]
  simp

end Pong
